import Mathlib

/-!
Verification development for the RevsTrackerBot repository.

The repository holds three variants of a Solana wallet monitoring Telegram
bot.  The file src/index.js is the minimum-amount variant; the file
src/unnamed/part_000 holds two further variants: an exact-amount-set variant
and a hardcoded-amount-list variant.  This file gives a shallow embedding of
the pure computational core of those programs (signature-diff cursor logic,
balance-delta transfer extraction, per-subscriber filtering and dispatch,
command-handler state updates) and proves or refutes the frozen claims about
them.

Numeric convention: lamport balances are integers; SOL amounts are exact
rationals obtained as lamports / 10^9, mirroring the source's division by
1e9.  The JavaScript Math.abs is embedded as jsAbs.
-/

namespace RevsTracker

/-- Outcome of one delivery attempt through the Telegram sendMessage call:
success, a non-403 error (caught and logged), or the error_code 403 case
(recipient blocked the bot). -/
inductive SendResult where
  | delivered
  | transientError
  | error403
  deriving DecidableEq, Repr

/-- Direction tag of a reconstructed transfer, mirroring the string field
type: 'incoming' | 'outgoing' in parseSOLTransfers. -/
inductive TransferType where
  | incoming
  | outgoing
  deriving DecidableEq, Repr

/-- A reconstructed transfer event as built by parseSOLTransfers:
fields from, to, amount, type.  The field named from in the source is
rendered fromAddr because from is reserved in Lean. -/
structure Transfer where
  fromAddr : String
  toAddr : String
  amount : ℚ
  ttype : TransferType
  deriving DecidableEq, Repr

/-- Balance snapshot of one transaction as consumed by parseSOLTransfers:
meta.preBalances, meta.postBalances (lamports), and the account key list
(rendered as strings, as the source compares accountKeys[i].toString()). -/
structure Tx where
  preBalances : List Int
  postBalances : List Int
  accountKeys : List String
  deriving DecidableEq, Repr

/-- Conversion of a lamport difference to SOL, mirroring the source's
division by 1e9 (exact over the rationals). -/
def lamportsToSol (x : Int) : ℚ := Rat.divInt x 1000000000

/-- Embedding of JavaScript Math.abs on the rationals. -/
def jsAbs (x : ℚ) : ℚ := if x < 0 then -x else x

/-- The extraction tolerance 0.001 SOL used by parseSOLTransfers
(comment in source: allow for some variance due to fees). -/
def tolSOL : ℚ := 1 / 1000

/-- Embedding of a first-match index scan, the JavaScript pattern
for (let i = start; fuel left; i++) with break on first hit.  Returns the
first index i with p i, scanning fuel indices starting at start. -/
def findFirstIdx (p : Nat → Bool) : Nat → Nat → Option Nat
  | 0, _ => none
  | fuel + 1, start => if p start then some start else findFirstIdx p fuel (start + 1)

/-- Embedding of the target-wallet lookup loop of parseSOLTransfers
(src/index.js lines 345-351): first index whose account key equals the
monitored wallet, none when absent (targetIndex === -1). -/
def targetIdx (tx : Tx) (targetWallet : String) : Option Nat :=
  findFirstIdx (fun i => decide (tx.accountKeys.getD i "" = targetWallet))
    tx.accountKeys.length 0

/-- Sender-side balance drop (preBalances[i] - postBalances[i]) / 1e9 for
index i, none when either balance entry is missing (the source's NaN case,
whose comparisons are all false). -/
def senderDrop (tx : Tx) (i : Nat) : Option ℚ :=
  match tx.preBalances.get? i, tx.postBalances.get? i with
  | some p, some q => some (lamportsToSol (p - q))
  | _, _ => none

/-- Receiver-side balance gain (postBalances[i] - preBalances[i]) / 1e9 for
index i, none when either balance entry is missing. -/
def receiverGain (tx : Tx) (i : Nat) : Option ℚ :=
  match tx.preBalances.get? i, tx.postBalances.get? i with
  | some p, some q => some (lamportsToSol (q - p))
  | _, _ => none

/-- Candidate test of the incoming scan of parseSOLTransfers (src/index.js
lines 362-376): an index other than the target whose balance drop is within
tolSOL of the monitored delta.  The source does not require the drop to be
positive. -/
def incomingMatch (tx : Tx) (t : Nat) (delta : ℚ) (i : Nat) : Bool :=
  decide (i ≠ t) &&
    match senderDrop tx i with
    | some d => decide (jsAbs (d - delta) < tolSOL)
    | none => false

/-- Candidate test of the outgoing scan of parseSOLTransfers (src/index.js
lines 379-392): an index other than the target whose balance gain is
positive and within tolSOL of the (negative) monitored delta. -/
def outgoingMatch (tx : Tx) (t : Nat) (delta : ℚ) (i : Nat) : Bool :=
  decide (i ≠ t) &&
    match receiverGain tx i with
    | some g => decide (0 < g) && decide (jsAbs (g + delta) < tolSOL)
    | none => false

/-- Embedding of parseSOLTransfers (src/index.js lines 336-400, identical in
both part_000 variants): locate the monitored wallet, compute its SOL delta,
and on a strictly positive (resp. negative) delta emit one incoming (resp.
outgoing) transfer for the first matching counterparty index, else none. -/
def parseSOLTransfers (tx : Tx) (targetWallet : String) : List Transfer :=
  match targetIdx tx targetWallet with
  | none => []
  | some t =>
    match tx.preBalances.get? t, tx.postBalances.get? t with
    | some p, some q =>
      let delta := lamportsToSol (q - p)
      if 0 < delta then
        match findFirstIdx (incomingMatch tx t delta) tx.accountKeys.length 0 with
        | some i => [⟨tx.accountKeys.getD i "", targetWallet, delta, TransferType.incoming⟩]
        | none => []
      else if delta < 0 then
        match findFirstIdx (outgoingMatch tx t delta) tx.accountKeys.length 0 with
        | some i => [⟨targetWallet, tx.accountKeys.getD i "", jsAbs delta, TransferType.outgoing⟩]
        | none => []
      else []
    | _, _ => []

/-- Modelled from the spec: the counterparty condition as claim C6 words it,
requiring an actual balance decrease (0 < drop) in addition to the tolerance
match.  Used to compare the claim against the source's incomingMatch, which
omits the positivity requirement. -/
def specDecreasedCounterparty (tx : Tx) (t : Nat) (delta : ℚ) : Bool :=
  (List.range tx.accountKeys.length).any (fun i =>
    decide (i ≠ t) &&
      match senderDrop tx i with
      | some d => decide (0 < d) && decide (jsAbs (d - delta) < tolSOL)
      | none => false)

/-- Modelled from the spec: the relevant counterparty of a transfer, the
sender for an incoming transfer and the recipient for an outgoing one
(claim C3's wording). -/
def relevantCounterparty (t : Transfer) : String :=
  match t.ttype with
  | TransferType.incoming => t.fromAddr
  | TransferType.outgoing => t.toAddr

/-- Cursor-scan embedding of checkForNewTransactions (src/index.js lines
275-284): walk the newest-first signature list collecting signatures, and
stop at the first one equal to the current lastSignature (a null cursor
matches no signature). -/
def diffNewSignatures (cursor : Option String) : List String → List String
  | [] => []
  | s :: rest => if some s = cursor then [] else s :: diffNewSignatures cursor rest

/-- Baseline establishment of startMonitoring (src/index.js lines 245-250):
when lastSignature is absent, fetch with limit 1 and take the newest
signature (or stay absent when there is no history); a present cursor is
kept. -/
def establishBaseline (cursor : Option String) (fetched : List String) : Option String :=
  match cursor with
  | some c => some c
  | none =>
    match fetched.take 1 with
    | [] => none
    | s :: _ => some s

/-- Cursor value after one checkForNewTransactions cycle of src/index.js:
unchanged when the poll is empty or no new signatures were found, else the
newest polled signature (line 289). -/
def cursorAfterCheck (cursor : Option String) (sigs : List String) : Option String :=
  match sigs with
  | [] => cursor
  | s :: rest => if diffNewSignatures cursor (s :: rest) = [] then cursor else some s

/-- Observable events of one poll cycle: a cursor advance to a signature, or
a processing attempt (processTransaction call) for a signature. -/
inductive CycleEvent where
  | advanceCursor (sig : String)
  | attemptProcess (sig : String)
  deriving DecidableEq, Repr

/-- Event trace of one checkForNewTransactions cycle of src/index.js (lines
285-299): when new signatures exist, the cursor is advanced to the newest
polled signature first, and only then is each new signature processed,
oldest first. -/
def traceIndex (cursor : Option String) (sigs : List String) : List CycleEvent :=
  match sigs with
  | [] => []
  | s :: rest =>
    let newSigs := diffNewSignatures cursor (s :: rest)
    if newSigs = [] then []
    else CycleEvent.advanceCursor s :: newSigs.reverse.map CycleEvent.attemptProcess

/-- Event trace of one checkForNewTransactions cycle of the second
src/unnamed/part_000 variant (lines 794-807): each new signature is
processed oldest first and the cursor is advanced to it right after its
processing attempt. -/
def traceV2 (cursor : Option String) (sigs : List String) : List CycleEvent :=
  match sigs with
  | [] => []
  | s :: rest =>
    (diffNewSignatures cursor (s :: rest)).reverse.flatMap
      (fun t => [CycleEvent.attemptProcess t, CycleEvent.advanceCursor t])

/-- Trace discipline check: scanning a cycle trace while accumulating the
signatures whose processing has been attempted, every cursor advance must
name an already-attempted signature. -/
def advanceAfterAttempt : List CycleEvent → List String → Bool
  | [], _ => true
  | CycleEvent.attemptProcess s :: rest, seen => advanceAfterAttempt rest (s :: seen)
  | CycleEvent.advanceCursor s :: rest, seen =>
    decide (s ∈ seen) && advanceAfterAttempt rest seen

/-- Per-subscriber settings of src/index.js: a minimum SOL amount and a
blacklist of addresses. -/
structure UserSettingsMin where
  minAmount : ℚ
  blacklist : List String
  deriving DecidableEq, Repr

/-- The default settings object of src/index.js:
used when userSettings has no entry for a chat id. -/
def defaultSettingsMin : UserSettingsMin := ⟨0, []⟩

/-- Lookup in an association-list embedding of the JavaScript Map
(Map.prototype.get). -/
def mapGet? {α : Type} (k : Int) : List (Int × α) → Option α
  | [] => none
  | p :: rest => if p.1 = k then some p.2 else mapGet? k rest

/-- Key removal in the association-list embedding of the JavaScript Map
(Map.prototype.delete). -/
def mapDelete {α : Type} (k : Int) (m : List (Int × α)) : List (Int × α) :=
  m.filter (fun p => decide (p.1 ≠ k))

/-- Insertion or in-place update in the association-list embedding of the
JavaScript Map (Map.prototype.set): replaces an existing entry keeping its
position, else appends. -/
def mapSet {α : Type} (k : Int) (v : α) : List (Int × α) → List (Int × α)
  | [] => [(k, v)]
  | p :: rest => if p.1 = k then (k, v) :: rest else p :: mapSet k v rest

/-- Filter decision of the src/index.js dispatch loop (lines 437-444): skip
when the amount is below the subscriber's minimum, then skip when the
transfer's from address is blacklisted; otherwise send. -/
def acceptMin (s : UserSettingsMin) (t : Transfer) : Bool :=
  if t.amount < s.minAmount then false
  else if decide (t.fromAddr ∈ s.blacklist) then false
  else true

/-- Accumulated effect of the dispatch loop: the evolving subscriber set and
settings map, the ordered list of chat ids to which a send was attempted,
the sub-list for which the send succeeded, and the number of saveUserData
calls issued. -/
structure DispatchAcc (σ : Type) where
  subs : List Int
  settings : List (Int × σ)
  attempted : List Int
  delivered : List Int
  saves : Nat
  deriving DecidableEq, Repr

/-- One iteration of the notifyAllUsers loop of src/index.js (lines
432-465): look up the subscriber's settings (default when absent), apply the
filters, attempt the send when accepted, and on error_code 403 delete the
subscriber from the subscriber set and the settings map and issue a
saveUserData call. -/
def dispatchStepMin (oracle : Int → SendResult) (t : Transfer)
    (acc : DispatchAcc UserSettingsMin) (chatId : Int) : DispatchAcc UserSettingsMin :=
  let s := (mapGet? chatId acc.settings).getD defaultSettingsMin
  if acceptMin s t then
    let acc1 := { acc with attempted := acc.attempted ++ [chatId] }
    match oracle chatId with
    | SendResult.delivered => { acc1 with delivered := acc1.delivered ++ [chatId] }
    | SendResult.transientError => acc1
    | SendResult.error403 =>
      { acc1 with
        subs := acc1.subs.filter (fun v => decide (v ≠ chatId)),
        settings := mapDelete chatId acc1.settings,
        saves := acc1.saves + 1 }
  else acc

/-- Embedding of notifyAllUsers of src/index.js: iterate the dispatch step
over the subscriber list as it stood when the loop started (JavaScript Set
iteration is safe against self-deletion of the current element). -/
def notifyAllUsersMin (oracle : Int → SendResult) (subs0 : List Int)
    (settings0 : List (Int × UserSettingsMin)) (t : Transfer) : DispatchAcc UserSettingsMin :=
  subs0.foldl (dispatchStepMin oracle t) ⟨subs0, settings0, [], [], 0⟩

/-- Per-subscriber settings of the first src/unnamed/part_000 variant: a
list of accepted fixed SOL amounts and a blacklist. -/
structure UserSettingsAmt where
  amount : List ℚ
  blacklist : List String
  deriving DecidableEq, Repr

/-- The default settings object of the exact-set variant. -/
def defaultSettingsAmt : UserSettingsAmt := ⟨[], []⟩

/-- Truncation side effect of the filter line of the exact-set variant
(src/unnamed/part_000 line 546): the expression settings.amount.length = 0
is an assignment, not a comparison, so evaluating the condition empties the
stored amount list of the subscriber when a stored entry exists. -/
def truncAmounts (k : Int) (m : List (Int × UserSettingsAmt)) : List (Int × UserSettingsAmt) :=
  m.map (fun p => if p.1 = k then (p.1, { p.2 with amount := [] }) else p)

/-- One iteration of the notifyAllUsers loop of the exact-set variant
(src/unnamed/part_000 lines 541-574).  The amount-filter condition at line
546 assigns 0 to settings.amount.length: the assignment empties the stored
amount list and evaluates to 0, which is falsy and short-circuits the
conjunction, so the amount skip branch is never taken and only the blacklist
check can suppress a send. -/
def dispatchStepAmt (oracle : Int → SendResult) (t : Transfer)
    (acc : DispatchAcc UserSettingsAmt) (chatId : Int) : DispatchAcc UserSettingsAmt :=
  let s := (mapGet? chatId acc.settings).getD defaultSettingsAmt
  let acc0 := { acc with settings := truncAmounts chatId acc.settings }
  if decide (t.fromAddr ∈ s.blacklist) then acc0
  else
    let acc1 := { acc0 with attempted := acc0.attempted ++ [chatId] }
    match oracle chatId with
    | SendResult.delivered => { acc1 with delivered := acc1.delivered ++ [chatId] }
    | SendResult.transientError => acc1
    | SendResult.error403 =>
      { acc1 with
        subs := acc1.subs.filter (fun v => decide (v ≠ chatId)),
        settings := mapDelete chatId acc1.settings,
        saves := acc1.saves + 1 }

/-- Embedding of notifyAllUsers of the exact-set variant of
src/unnamed/part_000. -/
def notifyAllUsersAmt (oracle : Int → SendResult) (subs0 : List Int)
    (settings0 : List (Int × UserSettingsAmt)) (t : Transfer) : DispatchAcc UserSettingsAmt :=
  subs0.foldl (dispatchStepAmt oracle t) ⟨subs0, settings0, [], [], 0⟩

/-- In-memory durable state of src/index.js relevant to the
settings-membership claims: the subscriber set (insertion ordered) and the
userSettings map. -/
structure BotState where
  subs : List Int
  settings : List (Int × UserSettingsMin)
  deriving DecidableEq, Repr

/-- Embedding of Set.prototype.add on the insertion-ordered subscriber
list. -/
def setAdd (u : Int) (l : List Int) : List Int :=
  if decide (u ∈ l) then l else l ++ [u]

/-- Commands and dispatcher events that mutate the durable state of
src/index.js: the /start handler, the /unsubscribe handler, the
set_min_amount text input, the blacklist add and remove handlers, and the
403-driven pruning of the dispatch loop. -/
inductive Cmd where
  | start (u : Int)
  | unsubscribe (u : Int)
  | setMinAmountInput (u : Int) (amt : ℚ)
  | blacklistAdd (u : Int) (addr : String) (valid : Bool)
  | blacklistRemove (u : Int) (idx : Nat)
  | prune (u : Int)
  deriving DecidableEq, Repr

/-- State transition of each handler, read off src/index.js: start adds the
chat id to the subscriber set (lines 61-64); unsubscribe deletes it from
both the set and the settings map (lines 106-113); the set_min_amount input
handler writes the subscriber's minAmount without checking membership in the
subscriber set (lines 121-130); the blacklist handlers first require
membership (lines 149-190); 403 pruning deletes from both (lines
458-463). -/
def stepCmd (st : BotState) : Cmd → BotState
  | Cmd.start u => { st with subs := setAdd u st.subs }
  | Cmd.unsubscribe u =>
    { subs := st.subs.filter (fun v => decide (v ≠ u)),
      settings := mapDelete u st.settings }
  | Cmd.setMinAmountInput u amt =>
    let s := (mapGet? u st.settings).getD defaultSettingsMin
    { st with settings := mapSet u { s with minAmount := amt } st.settings }
  | Cmd.blacklistAdd u addr valid =>
    if decide (u ∈ st.subs) && valid then
      let s := (mapGet? u st.settings).getD defaultSettingsMin
      if decide (addr ∈ s.blacklist) then st
      else { st with settings := mapSet u { s with blacklist := s.blacklist ++ [addr] } st.settings }
    else st
  | Cmd.blacklistRemove u idx =>
    if decide (u ∈ st.subs) then
      let s := (mapGet? u st.settings).getD defaultSettingsMin
      if idx < s.blacklist.length then
        { st with settings :=
            mapSet u { s with blacklist := s.blacklist.take idx ++ s.blacklist.drop (idx + 1) } st.settings }
      else st
    else st
  | Cmd.prune u =>
    { subs := st.subs.filter (fun v => decide (v ≠ u)),
      settings := mapDelete u st.settings }

/-- Execution of a command sequence from a starting state. -/
def runCmds (cmds : List Cmd) (st : BotState) : BotState :=
  cmds.foldl stepCmd st

/-- The fresh state of a first run (no user_data.json). -/
def initialState : BotState := ⟨[], []⟩

/-- Settings-membership invariant of claim C9: every key of the settings map
belongs to the subscriber set. -/
def settingsKeysSubset (st : BotState) : Prop :=
  ∀ p ∈ st.settings, p.1 ∈ st.subs

/-- Discriminator for the one handler that writes settings without a
subscription check. -/
def isSetMinAmountInput : Cmd → Bool
  | Cmd.setMinAmountInput _ _ => true
  | _ => false

/-- Delivery oracle for witnesses: every send succeeds. -/
def oracleAllDelivered : Int → SendResult := fun _ => SendResult.delivered

/-- Delivery oracle for witnesses: chat id 1 has blocked the bot (403),
every other send succeeds. -/
def oracle403For1 : Int → SendResult :=
  fun u => if u = 1 then SendResult.error403 else SendResult.delivered

/-- Concrete snapshot for claim C6: monitored delta +0.0005 SOL, the only
other account gains 0.0004 SOL (its balance increases, yet its signed drop
-0.0004 is within 0.001 of the delta). -/
def cexTx6 : Tx := ⟨[0, 0], [500000, 400000], ["T", "A"]⟩

/-- Concrete snapshot of the claim C7 scenario: monitored delta +0.50 SOL,
one counterparty delta -0.502 SOL. -/
def tx7bad : Tx := ⟨[0, 502000000], [500000000, 0], ["T", "A"]⟩

/-- Concrete snapshot with the counterparty drop 0.5005 SOL, within the
0.001 tolerance of the +0.50 delta. -/
def tx7good : Tx := ⟨[0, 500500000], [500000000, 0], ["T", "A"]⟩

/-- Concrete outgoing transfer for claim C3: the monitored wallet W sends
1 SOL to recipient B. -/
def tOutB : Transfer := ⟨"W", "B", 1, TransferType.outgoing⟩

/-- A scan that finds nothing: when no index in the scanned window satisfies
the test, findFirstIdx returns none. -/
theorem findFirstIdx_eq_none_of (p : Nat → Bool) (fuel : Nat) :
    ∀ (start : Nat), (∀ j, start ≤ j → j < start + fuel → p j = false) →
      findFirstIdx p fuel start = none := by
  induction fuel with
  | zero => intro start _; rfl
  | succ n ih =>
    intro start h
    have hs : p start = false := h start le_rfl (by omega)
    simp only [findFirstIdx, hs, Bool.false_eq_true, if_false]
    exact ih (start + 1) (fun j hj1 hj2 => h j (by omega) (by omega))

/-- A successful scan returns an in-window index satisfying the test, and
every earlier index in the window fails it (first-match semantics of the
JavaScript loop with break). -/
theorem findFirstIdx_some_spec (p : Nat → Bool) (fuel : Nat) :
    ∀ (start k : Nat), findFirstIdx p fuel start = some k →
      start ≤ k ∧ k < start + fuel ∧ p k = true ∧
        ∀ j, start ≤ j → j < k → p j = false := by
  induction fuel with
  | zero => intro start k h; simp [findFirstIdx] at h
  | succ n ih =>
    intro start k h
    by_cases hs : p start = true
    · simp only [findFirstIdx, hs, if_true] at h
      cases h
      exact ⟨le_rfl, by omega, hs,
        fun j hj1 hj2 => absurd (Nat.lt_of_le_of_lt hj1 hj2) (Nat.lt_irrefl start)⟩
    · have hs' : p start = false := by
        cases hps : p start
        · rfl
        · exact absurd hps hs
      simp only [findFirstIdx, hs', Bool.false_eq_true, if_false] at h
      obtain ⟨h1, h2, h3, h4⟩ := ih (start + 1) k h
      refine ⟨by omega, by omega, h3, ?_⟩
      intro j hj1 hj2
      rcases Nat.eq_or_lt_of_le hj1 with he | hlt
      · exact he ▸ hs'
      · exact h4 j (by omega) hj2

/-- Converse: the least in-window index satisfying the test is the one the
scan returns. -/
theorem findFirstIdx_eq_some_of (p : Nat → Bool) (fuel : Nat) :
    ∀ (start k : Nat), start ≤ k → k < start + fuel → p k = true →
      (∀ j, start ≤ j → j < k → p j = false) →
      findFirstIdx p fuel start = some k := by
  induction fuel with
  | zero => intro start k h1 h2 _ _; omega
  | succ n ih =>
    intro start k h1 h2 h3 h4
    rcases Nat.eq_or_lt_of_le h1 with he | hlt
    · subst he
      simp only [findFirstIdx, h3, if_true]
    · have hs : p start = false := h4 start le_rfl hlt
      simp only [findFirstIdx, hs, Bool.false_eq_true, if_false]
      exact ih (start + 1) k (by omega) (by omega) h3 (fun j hj1 hj2 => h4 j (by omega) hj2)

/-- The signature-collection loop is a takeWhile on the newest-first list:
it keeps collecting exactly while the scanned signature differs from the
cursor. -/
theorem diffNewSignatures_eq_takeWhile (c : String) (sigs : List String) :
    diffNewSignatures (some c) sigs = sigs.takeWhile (fun x => decide (x ≠ c)) := by
  induction sigs with
  | nil => rfl
  | cons s rest ih =>
    by_cases hs : s = c
    · subst hs
      simp [diffNewSignatures, List.takeWhile_cons]
    · simp [diffNewSignatures, List.takeWhile_cons, hs, ih]

/-- In an attempt-then-advance trace, every cursor advance names a signature
attempted earlier in the trace. -/
theorem advanceAfterAttempt_interleaved (l : List String) :
    ∀ seen : List String,
      advanceAfterAttempt
        (l.flatMap fun t => [CycleEvent.attemptProcess t, CycleEvent.advanceCursor t]) seen
        = true := by
  induction l with
  | nil => intro seen; rfl
  | cons s rest ih =>
    intro seen
    have hm : (s :: rest).flatMap
          (fun t => [CycleEvent.attemptProcess t, CycleEvent.advanceCursor t])
        = CycleEvent.attemptProcess s :: CycleEvent.advanceCursor s ::
            rest.flatMap (fun t => [CycleEvent.attemptProcess t, CycleEvent.advanceCursor t]) := by
      simp
    rw [hm]
    simp only [advanceAfterAttempt]
    rw [ih (s :: seen)]
    simp

/-- Deleting a key makes its lookup fail and leaves other lookups
unchanged. -/
theorem mapGet?_mapDelete {α : Type} (u k : Int) (m : List (Int × α)) :
    mapGet? u (mapDelete k m) = if u = k then none else mapGet? u m := by
  induction m with
  | nil => by_cases hu : u = k <;> simp [mapDelete, mapGet?, hu]
  | cons p rest ih =>
    by_cases hp : p.1 = k
    · have hfilter : mapDelete k (p :: rest) = mapDelete k rest := by
        simp [mapDelete, List.filter_cons, hp]
      rw [hfilter, ih]
      by_cases hu : u = k
      · simp [hu]
      · have hpu : p.1 ≠ u := by rw [hp]; exact fun e => hu e.symm
        simp [hu, mapGet?, hpu]
    · have hfilter : mapDelete k (p :: rest) = p :: mapDelete k rest := by
        simp [mapDelete, List.filter_cons, hp]
      rw [hfilter]
      by_cases hpe : p.1 = u
      · have huk : u ≠ k := by rw [← hpe]; exact hp
        simp [mapGet?, hpe, huk]
      · simp [mapGet?, hpe, ih]

/-- Any entry of a map after an insert-or-update is either the written pair
or an entry that was already present. -/
theorem mem_mapSet {α : Type} (k : Int) (v : α) (p : Int × α) :
    ∀ m : List (Int × α), p ∈ mapSet k v m → p = (k, v) ∨ p ∈ m := by
  intro m
  induction m with
  | nil => intro hp; simp [mapSet] at hp; exact Or.inl hp
  | cons q rest ih =>
    intro hp
    by_cases hq : q.1 = k
    · rw [mapSet, if_pos hq] at hp
      rcases List.mem_cons.mp hp with he | hm
      · exact Or.inl he
      · exact Or.inr (List.mem_cons_of_mem q hm)
    · rw [mapSet, if_neg hq] at hp
      rcases List.mem_cons.mp hp with he | hm
      · exact Or.inr (he ▸ List.mem_cons_self q rest)
      · rcases ih hm with h | h
        · exact Or.inl h
        · exact Or.inr (List.mem_cons_of_mem q h)

/-- One dispatch step of the min-amount variant keeps the settings lookup of
every chat id other than the one being served. -/
theorem dispatchStepMin_settings_other (oracle : Int → SendResult) (t : Transfer)
    (acc : DispatchAcc UserSettingsMin) (c v : Int) (hvc : v ≠ c) :
    mapGet? v (dispatchStepMin oracle t acc c).settings = mapGet? v acc.settings := by
  unfold dispatchStepMin
  by_cases hac : acceptMin ((mapGet? c acc.settings).getD defaultSettingsMin) t = true
  · rw [if_pos hac]
    cases horacle : oracle c <;> simp [mapGet?_mapDelete, hvc]
  · rw [if_neg hac]

/-- One dispatch step of the min-amount variant never re-adds a chat id to
the subscriber set. -/
theorem dispatchStepMin_subs_not_mem (oracle : Int → SendResult) (t : Transfer)
    (acc : DispatchAcc UserSettingsMin) (c u : Int) (hu : u ∉ acc.subs) :
    u ∉ (dispatchStepMin oracle t acc c).subs := by
  unfold dispatchStepMin
  by_cases hac : acceptMin ((mapGet? c acc.settings).getD defaultSettingsMin) t = true
  · rw [if_pos hac]
    cases horacle : oracle c <;> simp_all [List.mem_filter]
  · rw [if_neg hac]; exact hu

/-- One dispatch step of the min-amount variant never re-creates a settings
entry. -/
theorem dispatchStepMin_settings_none (oracle : Int → SendResult) (t : Transfer)
    (acc : DispatchAcc UserSettingsMin) (c u : Int)
    (hu : mapGet? u acc.settings = none) :
    mapGet? u (dispatchStepMin oracle t acc c).settings = none := by
  unfold dispatchStepMin
  by_cases hac : acceptMin ((mapGet? c acc.settings).getD defaultSettingsMin) t = true
  · rw [if_pos hac]
    cases horacle : oracle c <;> simp [mapGet?_mapDelete, hu]
  · rw [if_neg hac]; exact hu

/-- One dispatch step of the min-amount variant never lowers the count of
persistence writes. -/
theorem dispatchStepMin_saves_le (oracle : Int → SendResult) (t : Transfer)
    (acc : DispatchAcc UserSettingsMin) (c : Int) :
    acc.saves ≤ (dispatchStepMin oracle t acc c).saves := by
  unfold dispatchStepMin
  by_cases hac : acceptMin ((mapGet? c acc.settings).getD defaultSettingsMin) t = true
  · rw [if_pos hac]
    cases horacle : oracle c <;> simp
  · rw [if_neg hac]

/-- The attempt made by one dispatch step, read off the subscriber's
settings. -/
theorem dispatchStepMin_attempted (oracle : Int → SendResult) (t : Transfer)
    (acc : DispatchAcc UserSettingsMin) (c : Int) :
    (dispatchStepMin oracle t acc c).attempted
      = acc.attempted ++
          (if acceptMin ((mapGet? c acc.settings).getD defaultSettingsMin) t then [c] else []) := by
  unfold dispatchStepMin
  by_cases hac : acceptMin ((mapGet? c acc.settings).getD defaultSettingsMin) t = true
  · rw [if_pos hac, if_pos hac]
    cases horacle : oracle c <;> simp
  · rw [if_neg hac, if_neg hac]
    simp

/-- Folding the dispatch over chat ids not containing u keeps u's settings
lookup. -/
theorem foldMin_settings_stable (oracle : Int → SendResult) (t : Transfer) (u : Int) :
    ∀ (l : List Int) (acc : DispatchAcc UserSettingsMin), u ∉ l →
      mapGet? u (l.foldl (dispatchStepMin oracle t) acc).settings = mapGet? u acc.settings := by
  intro l
  induction l with
  | nil => intro acc _; rfl
  | cons c rest ih =>
    intro acc hu
    have huc : u ≠ c := fun e => hu (e ▸ List.mem_cons_self c rest)
    have hur : u ∉ rest := fun h => hu (List.mem_cons_of_mem c h)
    rw [List.foldl_cons, ih _ hur, dispatchStepMin_settings_other oracle t acc c u huc]

/-- Folding the dispatch never re-adds a chat id to the subscriber set. -/
theorem foldMin_subs_not_mem (oracle : Int → SendResult) (t : Transfer) (u : Int) :
    ∀ (l : List Int) (acc : DispatchAcc UserSettingsMin), u ∉ acc.subs →
      u ∉ (l.foldl (dispatchStepMin oracle t) acc).subs := by
  intro l
  induction l with
  | nil => intro acc hu; exact hu
  | cons c rest ih =>
    intro acc hu
    rw [List.foldl_cons]
    exact ih _ (dispatchStepMin_subs_not_mem oracle t acc c u hu)

/-- Folding the dispatch never re-creates a settings entry. -/
theorem foldMin_settings_none (oracle : Int → SendResult) (t : Transfer) (u : Int) :
    ∀ (l : List Int) (acc : DispatchAcc UserSettingsMin),
      mapGet? u acc.settings = none →
      mapGet? u (l.foldl (dispatchStepMin oracle t) acc).settings = none := by
  intro l
  induction l with
  | nil => intro acc hu; exact hu
  | cons c rest ih =>
    intro acc hu
    rw [List.foldl_cons]
    exact ih _ (dispatchStepMin_settings_none oracle t acc c u hu)

/-- Folding the dispatch never lowers the count of persistence writes. -/
theorem foldMin_saves_le (oracle : Int → SendResult) (t : Transfer) :
    ∀ (l : List Int) (acc : DispatchAcc UserSettingsMin),
      acc.saves ≤ (l.foldl (dispatchStepMin oracle t) acc).saves := by
  intro l
  induction l with
  | nil => intro acc; exact le_rfl
  | cons c rest ih =>
    intro acc
    rw [List.foldl_cons]
    exact (dispatchStepMin_saves_le oracle t acc c).trans (ih _)

/-- The attempted sends of the dispatch loop over a duplicate-free
subscriber list are exactly the subscribers accepted by the filter, judged
on the settings as they stood when the loop started. -/
theorem foldMin_attempted (oracle : Int → SendResult) (t : Transfer)
    (settings0 : List (Int × UserSettingsMin)) :
    ∀ (l : List Int) (acc : DispatchAcc UserSettingsMin), l.Nodup →
      (∀ v ∈ l, mapGet? v acc.settings = mapGet? v settings0) →
      (l.foldl (dispatchStepMin oracle t) acc).attempted
        = acc.attempted ++
            l.filter (fun v => acceptMin ((mapGet? v settings0).getD defaultSettingsMin) t) := by
  intro l
  induction l with
  | nil => intro acc _ _; simp
  | cons c rest ih =>
    intro acc hnd hstable
    have hset : mapGet? c acc.settings = mapGet? c settings0 := hstable c (List.mem_cons_self c rest)
    have hnd' : rest.Nodup := (List.nodup_cons.mp hnd).2
    have hnotmem : c ∉ rest := (List.nodup_cons.mp hnd).1
    have hstable' : ∀ v ∈ rest,
        mapGet? v (dispatchStepMin oracle t acc c).settings = mapGet? v settings0 := by
      intro v hv
      have hvc : v ≠ c := fun e => hnotmem (e ▸ hv)
      rw [dispatchStepMin_settings_other oracle t acc c v hvc]
      exact hstable v (List.mem_cons_of_mem c hv)
    rw [List.foldl_cons, ih _ hnd' hstable', dispatchStepMin_attempted, hset]
    by_cases hac : acceptMin ((mapGet? c settings0).getD defaultSettingsMin) t = true
    · simp [List.filter_cons, hac]
    · have hac' : acceptMin ((mapGet? c settings0).getD defaultSettingsMin) t = false := by
        cases h : acceptMin ((mapGet? c settings0).getD defaultSettingsMin) t
        · rfl
        · exact absurd h hac
      simp [List.filter_cons, hac']

/-- Every handler other than the set_min_amount input preserves the
settings-membership invariant. -/
theorem stepCmd_preserves_membership (st : BotState) (c : Cmd)
    (hc : isSetMinAmountInput c = false) (hinv : settingsKeysSubset st) :
    settingsKeysSubset (stepCmd st c) := by
  cases c with
  | start u =>
    intro p hp
    simp only [stepCmd] at hp ⊢
    unfold setAdd
    split
    · exact hinv p hp
    · exact List.mem_append_left _ (hinv p hp)
  | unsubscribe u =>
    intro p hp
    simp only [stepCmd] at hp ⊢
    unfold mapDelete at hp
    rw [List.mem_filter] at hp
    rw [List.mem_filter]
    exact ⟨hinv p hp.1, hp.2⟩
  | setMinAmountInput u amt => simp [isSetMinAmountInput] at hc
  | blacklistAdd u addr valid =>
    intro p hp
    simp only [stepCmd] at hp ⊢
    by_cases h1 : (decide (u ∈ st.subs) && valid) = true
    · have hu : u ∈ st.subs := of_decide_eq_true ((Bool.and_eq_true _ _).mp h1).1
      rw [if_pos h1] at hp ⊢
      by_cases h2 : decide (addr ∈ ((mapGet? u st.settings).getD defaultSettingsMin).blacklist) = true
      · rw [if_pos h2] at hp ⊢
        exact hinv p hp
      · rw [if_neg h2] at hp ⊢
        rcases mem_mapSet _ _ _ _ hp with he | hm
        · subst he; exact hu
        · exact hinv p hm
    · rw [if_neg h1] at hp ⊢
      exact hinv p hp
  | blacklistRemove u idx =>
    intro p hp
    simp only [stepCmd] at hp ⊢
    by_cases h1 : decide (u ∈ st.subs) = true
    · have hu : u ∈ st.subs := of_decide_eq_true h1
      rw [if_pos h1] at hp ⊢
      by_cases h2 : idx < ((mapGet? u st.settings).getD defaultSettingsMin).blacklist.length
      · rw [if_pos h2] at hp ⊢
        rcases mem_mapSet _ _ _ _ hp with he | hm
        · subst he; exact hu
        · exact hinv p hm
      · rw [if_neg h2] at hp ⊢
        exact hinv p hp
    · rw [if_neg h1] at hp ⊢
      exact hinv p hp
  | prune u =>
    intro p hp
    simp only [stepCmd] at hp ⊢
    unfold mapDelete at hp
    rw [List.mem_filter] at hp
    rw [List.mem_filter]
    exact ⟨hinv p hp.1, hp.2⟩

/-- After the dispatch fold passes the position of a 403 subscriber, that
subscriber is out of the subscriber set and the settings map and at least
one persistence write has happened. -/
theorem foldMin_prune_aux (oracle : Int → SendResult) (t : Transfer)
    (settings0 : List (Int × UserSettingsMin)) (u : Int) (l₁ l₂ : List Int)
    (hu1 : u ∉ l₁) (acc : DispatchAcc UserSettingsMin)
    (hset : mapGet? u acc.settings = mapGet? u settings0)
    (hacc : acceptMin ((mapGet? u settings0).getD defaultSettingsMin) t = true)
    (hor : oracle u = SendResult.error403) :
    u ∉ ((l₁ ++ u :: l₂).foldl (dispatchStepMin oracle t) acc).subs ∧
    mapGet? u ((l₁ ++ u :: l₂).foldl (dispatchStepMin oracle t) acc).settings = none ∧
    1 ≤ ((l₁ ++ u :: l₂).foldl (dispatchStepMin oracle t) acc).saves := by
  rw [List.foldl_append, List.foldl_cons]
  have hstab : mapGet? u (l₁.foldl (dispatchStepMin oracle t) acc).settings
      = mapGet? u settings0 := by
    rw [foldMin_settings_stable oracle t u l₁ acc hu1, hset]
  have hsubs : u ∉ (dispatchStepMin oracle t (l₁.foldl (dispatchStepMin oracle t) acc) u).subs := by
    simp only [dispatchStepMin, hstab, hacc, if_true, hor]
    simp [List.mem_filter]
  have hsetnone :
      mapGet? u (dispatchStepMin oracle t (l₁.foldl (dispatchStepMin oracle t) acc) u).settings
        = none := by
    simp only [dispatchStepMin, hstab, hacc, if_true, hor]
    simp [mapGet?_mapDelete]
  have hsaves : 1 ≤ (dispatchStepMin oracle t (l₁.foldl (dispatchStepMin oracle t) acc) u).saves := by
    simp only [dispatchStepMin, hstab, hacc, if_true, hor]
    simp
  exact ⟨foldMin_subs_not_mem oracle t u l₂ _ hsubs,
    foldMin_settings_none oracle t u l₂ _ hsetnone,
    le_trans hsaves (foldMin_saves_le oracle t l₂ _)⟩

/-- Claim C1: the spec demands fail-closed exact-set filtering (a subscriber
with an empty accepted-amount list receives zero alerts), but in the
exact-set variant the filter condition at src/unnamed/part_000 line 546 uses
an assignment where a comparison was intended, so the amount filter never
skips: subscriber 7, whose stored amount list is empty and whose blacklist
is empty, gets the alert for a 12.3 SOL transfer attempted and delivered. -/
theorem claim1_empty_exact_set_still_alerts :
    (notifyAllUsersAmt oracleAllDelivered [7] [(7, (⟨[], []⟩ : UserSettingsAmt))]
        ⟨"S", "T", mkRat 123 10, TransferType.incoming⟩).attempted = [7] ∧
    (notifyAllUsersAmt oracleAllDelivered [7] [(7, (⟨[], []⟩ : UserSettingsAmt))]
        ⟨"S", "T", mkRat 123 10, TransferType.incoming⟩).delivered = [7] := by
  constructor
  · with_unfolding_all rfl
  · with_unfolding_all rfl

/-- Claim C2 counterexample: in the src/index.js cycle with cursor S3 and
poll [S5, S4, S3], the cursor is advanced to S5 before any processing
attempt, so the advance-only-after-attempt discipline the claim states is
violated. -/
theorem claim2_counterexample :
    advanceAfterAttempt (traceIndex (some "S3") ["S5", "S4", "S3"]) [] = false := by
  decide

/-- Claim C2 (amended): the second src/unnamed/part_000 variant advances the
cursor to an id only after that id's processing attempt, on every cycle; the
src/index.js variant instead advances the cursor (to the newest polled id)
before any processing attempt whenever the cycle discovered new ids. -/
theorem claim2_cursor_order (cursor : Option String) (sigs : List String) :
    advanceAfterAttempt (traceV2 cursor sigs) [] = true ∧
    (diffNewSignatures cursor sigs ≠ [] →
      advanceAfterAttempt (traceIndex cursor sigs) [] = false) := by
  constructor
  · cases sigs with
    | nil => rfl
    | cons s rest =>
      simp only [traceV2]
      exact advanceAfterAttempt_interleaved _ []
  · intro hne
    cases sigs with
    | nil => exact absurd rfl hne
    | cons s rest =>
      simp only [traceIndex]
      rw [if_neg hne]
      simp [advanceAfterAttempt]

/-- Concrete run of claim2_cursor_order on cursor S3 and poll
[S5, S4, S3]. -/
theorem claim2_cursor_order_witness :
    advanceAfterAttempt (traceV2 (some "S3") ["S5", "S4", "S3"]) [] = true ∧
    (diffNewSignatures (some "S3") ["S5", "S4", "S3"] ≠ [] ∧
      advanceAfterAttempt (traceIndex (some "S3") ["S5", "S4", "S3"]) [] = false) :=
  ⟨(claim2_cursor_order (some "S3") ["S5", "S4", "S3"]).1, by decide,
    (claim2_cursor_order (some "S3") ["S5", "S4", "S3"]).2 (by decide)⟩

/-- Claim C3 counterexample: the dispatch loop checks the blacklist against
the transfer's from address only, so for the outgoing transfer tOutB, whose
relevant counterparty (the recipient B) the subscriber has blacklisted, the
alert is still attempted. -/
theorem claim3_counterexample :
    relevantCounterparty tOutB
        ∈ ((mapGet? 1 [(1, (⟨0, ["B"]⟩ : UserSettingsMin))]).getD defaultSettingsMin).blacklist ∧
    (notifyAllUsersMin oracleAllDelivered [1] [(1, (⟨0, ["B"]⟩ : UserSettingsMin))]
        tOutB).attempted = [1] := by
  constructor
  · decide
  · with_unfolding_all rfl

/-- Claim C3 (amended): the blacklist is compared against the transfer's
from address, so suppression works for incoming transfers (whose relevant
counterparty, the sender, is the from address): over any duplicate-free
subscriber list, a subscriber whose blacklist holds the relevant
counterparty of an incoming transfer is never sent that alert, even when
the amount passes; for outgoing transfers the recipient is not checked. -/
theorem claim3_blacklist_suppresses_incoming (oracle : Int → SendResult)
    (subs0 : List Int) (settings0 : List (Int × UserSettingsMin)) (t : Transfer) (u : Int)
    (hnd : subs0.Nodup) (hin : t.ttype = TransferType.incoming)
    (hbl : relevantCounterparty t ∈ ((mapGet? u settings0).getD defaultSettingsMin).blacklist) :
    u ∉ (notifyAllUsersMin oracle subs0 settings0 t).attempted := by
  have hatt := foldMin_attempted oracle t settings0 subs0 ⟨subs0, settings0, [], [], 0⟩
    hnd (fun v _ => rfl)
  intro hmem
  rw [notifyAllUsersMin, hatt] at hmem
  simp only [List.nil_append] at hmem
  rw [List.mem_filter] at hmem
  have hfrom : t.fromAddr ∈ ((mapGet? u settings0).getD defaultSettingsMin).blacklist := by
    simpa [relevantCounterparty, hin] using hbl
  have hrej : acceptMin ((mapGet? u settings0).getD defaultSettingsMin) t = false := by
    unfold acceptMin
    by_cases h1 : t.amount < ((mapGet? u settings0).getD defaultSettingsMin).minAmount
    · rw [if_pos h1]
    · rw [if_neg h1, if_pos (decide_eq_true hfrom)]
  rw [hrej] at hmem
  exact Bool.false_ne_true hmem.2

/-- Concrete run of claim3_blacklist_suppresses_incoming: subscriber 1 has
blacklisted X, and an incoming 1 SOL transfer from X is not attempted. -/
theorem claim3_witness :
    1 ∉ (notifyAllUsersMin oracleAllDelivered [1] [(1, (⟨0, ["X"]⟩ : UserSettingsMin))]
        ⟨"X", "T", 1, TransferType.incoming⟩).attempted :=
  claim3_blacklist_suppresses_incoming oracleAllDelivered [1]
    [(1, (⟨0, ["X"]⟩ : UserSettingsMin))] ⟨"X", "T", 1, TransferType.incoming⟩ 1
    (by decide) rfl (by decide)

/-- Claim C4: with an absent cursor, startMonitoring takes the newest id of
the fetch as the baseline, and the following poll diff against the same
newest-first list emits zero new ids and produces no processing events (no
alerts for pre-existing history). -/
theorem claim4_absent_cursor_baseline (sigs : List String) (hne : sigs ≠ []) :
    establishBaseline none sigs = some (sigs.headD "") ∧
    diffNewSignatures (establishBaseline none sigs) sigs = [] ∧
    traceIndex (establishBaseline none sigs) sigs = [] := by
  cases sigs with
  | nil => exact absurd rfl hne
  | cons s rest =>
    have hb : establishBaseline none (s :: rest) = some s := rfl
    refine ⟨hb, ?_, ?_⟩
    · rw [hb]
      simp [diffNewSignatures]
    · rw [hb]
      simp [traceIndex, diffNewSignatures]

/-- The claim C4 scenario: cursor absent, poll returns [S3, S2, S1]
newest-first; the baseline becomes S3 and no alerts are emitted. -/
theorem claim4_witness :
    establishBaseline none ["S3", "S2", "S1"] = some (["S3", "S2", "S1"].headD "") ∧
    diffNewSignatures (establishBaseline none ["S3", "S2", "S1"]) ["S3", "S2", "S1"] = [] ∧
    traceIndex (establishBaseline none ["S3", "S2", "S1"]) ["S3", "S2", "S1"] = [] :=
  claim4_absent_cursor_baseline ["S3", "S2", "S1"] (by decide)

/-- Claim C5: the poll diff collects newest-first ids up to the cursor (a
takeWhile on inequality with the cursor id) and processing reverses the
collected prefix to oldest-first order; in the scenario with cursor S3 and
poll [S5, S4, S3] the new ids are S4 then S5 and the cursor advances to
S5. -/
theorem claim5_diff_algorithm :
    (∀ (c : String) (sigs : List String),
        diffNewSignatures (some c) sigs = sigs.takeWhile (fun x => decide (x ≠ c))) ∧
    diffNewSignatures (some "S3") ["S5", "S4", "S3"] = ["S5", "S4"] ∧
    (diffNewSignatures (some "S3") ["S5", "S4", "S3"]).reverse = ["S4", "S5"] ∧
    cursorAfterCheck (some "S3") ["S5", "S4", "S3"] = some "S5" ∧
    traceIndex (some "S3") ["S5", "S4", "S3"]
      = [CycleEvent.advanceCursor "S5", CycleEvent.attemptProcess "S4",
          CycleEvent.attemptProcess "S5"] :=
  ⟨diffNewSignatures_eq_takeWhile, by decide, by decide, by decide, by decide⟩

/-- Claim C6 counterexample: on cexTx6 the monitored delta is +0.0005 SOL
and the only other account's balance increased, so no counterparty with a
decreased balance within tolerance exists, yet the incoming scan (which
never tests the sign of the drop) emits one event naming that account. -/
theorem claim6_counterexample :
    parseSOLTransfers cexTx6 "T" = [⟨"A", "T", mkRat 1 2000, TransferType.incoming⟩] ∧
    lamportsToSol (500000 - 0) = mkRat 1 2000 ∧
    specDecreasedCounterparty cexTx6 0 (mkRat 1 2000) = false := by
  refine ⟨?_, ?_, ?_⟩ <;> with_unfolding_all rfl

/-- Claim C6 (amended): when the monitored address is found and its delta is
strictly positive, extraction returns exactly one incoming event for the
least other index whose signed balance drop (preBalances minus postBalances,
over 1e9, not required to be an actual decrease) is within 0.001 of the
delta, and no event when no index qualifies; a zero delta yields no
event. -/
theorem claim6_incoming_extraction (tx : Tx) (w : String) (t : Nat) (p q : Int)
    (ht : targetIdx tx w = some t)
    (hp : tx.preBalances.get? t = some p)
    (hq : tx.postBalances.get? t = some q) :
    ((0 : ℚ) < lamportsToSol (q - p) →
      ((∀ i, i < tx.accountKeys.length →
          incomingMatch tx t (lamportsToSol (q - p)) i = false) →
        parseSOLTransfers tx w = []) ∧
      (∀ i, i < tx.accountKeys.length →
        incomingMatch tx t (lamportsToSol (q - p)) i = true →
        (∀ j, j < i → incomingMatch tx t (lamportsToSol (q - p)) j = false) →
        parseSOLTransfers tx w
          = [⟨tx.accountKeys.getD i "", w, lamportsToSol (q - p), TransferType.incoming⟩])) ∧
    (lamportsToSol (q - p) = 0 → parseSOLTransfers tx w = []) := by
  have hunfold : parseSOLTransfers tx w =
      (if 0 < lamportsToSol (q - p) then
        match findFirstIdx (incomingMatch tx t (lamportsToSol (q - p)))
            tx.accountKeys.length 0 with
        | some i => [⟨tx.accountKeys.getD i "", w, lamportsToSol (q - p), TransferType.incoming⟩]
        | none => []
      else if lamportsToSol (q - p) < 0 then
        match findFirstIdx (outgoingMatch tx t (lamportsToSol (q - p)))
            tx.accountKeys.length 0 with
        | some i =>
          [⟨w, tx.accountKeys.getD i "", jsAbs (lamportsToSol (q - p)), TransferType.outgoing⟩]
        | none => []
      else []) := by
    simp only [parseSOLTransfers, ht, hp, hq]
  constructor
  · intro hpos
    constructor
    · intro hall
      rw [hunfold, if_pos hpos,
        findFirstIdx_eq_none_of _ _ 0 (fun j _ hj2 => hall j (by omega))]
    · intro i hi hmi hmin
      rw [hunfold, if_pos hpos,
        findFirstIdx_eq_some_of _ _ 0 i (Nat.zero_le i) (by omega) hmi
          (fun j _ hj2 => hmin j hj2)]
  · intro hz
    rw [hunfold, hz]
    simp

/-- Concrete run of claim6_incoming_extraction on tx7good: the first (and
only) matching counterparty index is 1 and exactly one incoming event is
produced. -/
theorem claim6_witness :
    parseSOLTransfers tx7good "T"
      = [⟨tx7good.accountKeys.getD 1 "", "T", lamportsToSol (500000000 - 0),
          TransferType.incoming⟩] :=
  ((claim6_incoming_extraction tx7good "T" 0 0 500000000
      (by with_unfolding_all rfl) rfl rfl).1
    (of_decide_eq_true (by with_unfolding_all rfl))).2 1
      (by decide)
      (by with_unfolding_all rfl)
      (fun j hj => by
        have hj0 : j = 0 := by omega
        subst hj0
        with_unfolding_all rfl)

/-- Claim C7 counterexample: in the spec scenario (monitored delta +0.50,
counterparty delta -0.502, tolerance 0.001) the difference 0.002 exceeds the
tolerance, so extraction returns no event, not the single 0.50 SOL event the
claim states. -/
theorem claim7_counterexample : parseSOLTransfers tx7bad "T" = [] := by
  with_unfolding_all rfl

/-- Claim C7 (amended): with counterparty delta -0.502 the 0.001 tolerance
is exceeded (difference 0.002) and extraction returns no event; with
counterparty delta -0.5005, which is within tolerance of the +0.50 delta,
extraction returns exactly one incoming event with amount 0.50. -/
theorem claim7_tolerance_scenario :
    parseSOLTransfers tx7bad "T" = [] ∧
    parseSOLTransfers tx7good "T" = [⟨"A", "T", mkRat 1 2, TransferType.incoming⟩] ∧
    lamportsToSol 500000000 = mkRat 1 2 := by
  refine ⟨?_, ?_, ?_⟩ <;> with_unfolding_all rfl

/-- Claim C8: over a duplicate-free subscriber list, when the notifier
answers 403 for a filter-accepted subscriber, the dispatch loop removes that
subscriber from the subscriber set and from the settings map and issues at
least one saveUserData write, and the set of attempted sends is exactly the
filter-accepted subscribers judged on the settings as the loop started
(other subscribers' dispatch is unaffected by the failure). -/
theorem claim8_403_prunes_and_persists (oracle : Int → SendResult) (subs0 : List Int)
    (settings0 : List (Int × UserSettingsMin)) (t : Transfer) (u : Int)
    (hnd : subs0.Nodup) (hu : u ∈ subs0)
    (hacc : acceptMin ((mapGet? u settings0).getD defaultSettingsMin) t = true)
    (hor : oracle u = SendResult.error403) :
    u ∉ (notifyAllUsersMin oracle subs0 settings0 t).subs ∧
    mapGet? u (notifyAllUsersMin oracle subs0 settings0 t).settings = none ∧
    1 ≤ (notifyAllUsersMin oracle subs0 settings0 t).saves ∧
    (notifyAllUsersMin oracle subs0 settings0 t).attempted
      = subs0.filter (fun v => acceptMin ((mapGet? v settings0).getD defaultSettingsMin) t) := by
  have hatt := foldMin_attempted oracle t settings0 subs0 ⟨subs0, settings0, [], [], 0⟩
    hnd (fun v _ => rfl)
  obtain ⟨l₁, l₂, hsplit⟩ := List.append_of_mem hu
  subst hsplit
  rw [List.nodup_append] at hnd
  obtain ⟨_, h2, hdisj⟩ := hnd
  have hu1 : u ∉ l₁ := fun h => hdisj h (List.mem_cons_self u l₂)
  have haux := foldMin_prune_aux oracle t settings0 u l₁ l₂ hu1
    ⟨l₁ ++ u :: l₂, settings0, [], [], 0⟩ rfl hacc hor
  refine ⟨haux.1, haux.2.1, haux.2.2, ?_⟩
  rw [show (⟨l₁ ++ u :: l₂, settings0, [], [], 0⟩ : DispatchAcc UserSettingsMin).attempted = []
      from rfl, List.nil_append] at hatt
  exact hatt

/-- Concrete run of claim8_403_prunes_and_persists: subscribers 1 and 2,
subscriber 1 blocked the bot; 1 is pruned from both structures, a save
happens, and both subscribers were attempted. -/
theorem claim8_witness :
    1 ∉ (notifyAllUsersMin oracle403For1 [1, 2] [] ⟨"S", "T", 1, TransferType.incoming⟩).subs ∧
    mapGet? 1 (notifyAllUsersMin oracle403For1 [1, 2] []
        ⟨"S", "T", 1, TransferType.incoming⟩).settings = none ∧
    1 ≤ (notifyAllUsersMin oracle403For1 [1, 2] [] ⟨"S", "T", 1, TransferType.incoming⟩).saves ∧
    (notifyAllUsersMin oracle403For1 [1, 2] [] ⟨"S", "T", 1, TransferType.incoming⟩).attempted
      = [1, 2].filter
          (fun v => acceptMin ((mapGet? v ([] : List (Int × UserSettingsMin))).getD
            defaultSettingsMin) ⟨"S", "T", 1, TransferType.incoming⟩) :=
  claim8_403_prunes_and_persists oracle403For1 [1, 2] [] ⟨"S", "T", 1, TransferType.incoming⟩ 1
    (by decide) (by decide) (by decide) (by decide)

/-- Claim C9 counterexample: start 1, unsubscribe 1, then the set_min_amount
input for 1 (which never checks the subscriber set) leaves a settings entry
for 1 while 1 is not subscribed, breaking the membership invariant. -/
theorem claim9_counterexample :
    ¬ settingsKeysSubset
        (runCmds [Cmd.start 1, Cmd.unsubscribe 1, Cmd.setMinAmountInput 1 (mkRat 1 2)]
          initialState) := by
  intro h
  have hm : ((1 : Int), ({ minAmount := mkRat 1 2, blacklist := [] } : UserSettingsMin)) ∈
      (runCmds [Cmd.start 1, Cmd.unsubscribe 1, Cmd.setMinAmountInput 1 (mkRat 1 2)]
        initialState).settings := by
    with_unfolding_all (exact List.mem_singleton.mpr rfl)
  have hsub := h _ hm
  exact absurd hsub (by decide)

/-- Claim C9 (amended): the settings-membership invariant (every settings
key is a subscriber) is preserved by every handler except the
set_min_amount input, which writes settings without checking membership;
and removing a subscriber (unsubscribe or 403 pruning) removes its settings
in the same step. -/
theorem claim9_membership_invariant :
    (∀ (cmds : List Cmd) (st : BotState),
        (∀ c ∈ cmds, isSetMinAmountInput c = false) →
        settingsKeysSubset st → settingsKeysSubset (runCmds cmds st)) ∧
    (∀ (st : BotState) (u : Int),
        mapGet? u (stepCmd st (Cmd.unsubscribe u)).settings = none ∧
        u ∉ (stepCmd st (Cmd.unsubscribe u)).subs ∧
        mapGet? u (stepCmd st (Cmd.prune u)).settings = none ∧
        u ∉ (stepCmd st (Cmd.prune u)).subs) := by
  constructor
  · intro cmds
    induction cmds with
    | nil => intro st _ hinv; exact hinv
    | cons c rest ih =>
      intro st hall hinv
      have hstep := stepCmd_preserves_membership st c (hall c (List.mem_cons_self c rest)) hinv
      have hrun : runCmds (c :: rest) st = runCmds rest (stepCmd st c) := rfl
      rw [hrun]
      exact ih (stepCmd st c) (fun d hd => hall d (List.mem_cons_of_mem c hd)) hstep
  · intro st u
    refine ⟨?_, ?_, ?_, ?_⟩
    · show mapGet? u (mapDelete u st.settings) = none
      rw [mapGet?_mapDelete]
      simp
    · show u ∉ st.subs.filter (fun v => decide (v ≠ u))
      simp [List.mem_filter]
    · show mapGet? u (mapDelete u st.settings) = none
      rw [mapGet?_mapDelete]
      simp
    · show u ∉ st.subs.filter (fun v => decide (v ≠ u))
      simp [List.mem_filter]

/-- Concrete run of claim9_membership_invariant: starting then pruning
subscriber 1 keeps the invariant, and unsubscribe and prune atomically drop
subscriber 1's settings. -/
theorem claim9_witness :
    settingsKeysSubset (runCmds [Cmd.start 1, Cmd.prune 1] initialState) ∧
    (mapGet? 1 (stepCmd initialState (Cmd.unsubscribe 1)).settings = none ∧
      1 ∉ (stepCmd initialState (Cmd.unsubscribe 1)).subs ∧
      mapGet? 1 (stepCmd initialState (Cmd.prune 1)).settings = none ∧
      1 ∉ (stepCmd initialState (Cmd.prune 1)).subs) :=
  ⟨claim9_membership_invariant.1 [Cmd.start 1, Cmd.prune 1] initialState (by decide)
      (fun p hp => absurd hp (List.not_mem_nil p)),
    claim9_membership_invariant.2 initialState 1⟩

/-- Claim C10: for every transaction input, parseSOLTransfers returns at
most one event, and any returned event has a strictly positive amount and a
relevant counterparty drawn from an account-list index other than the
monitored address's index. -/
theorem claim10_extraction_shape (tx : Tx) (w : String) :
    (parseSOLTransfers tx w).length ≤ 1 ∧
    ∀ e ∈ parseSOLTransfers tx w,
      0 < e.amount ∧
      ∃ ti i, targetIdx tx w = some ti ∧ i < tx.accountKeys.length ∧ i ≠ ti ∧
        relevantCounterparty e = tx.accountKeys.getD i "" := by
  cases ht : targetIdx tx w with
  | none =>
    have hparse : parseSOLTransfers tx w = [] := by simp [parseSOLTransfers, ht]
    rw [hparse]
    simp
  | some t =>
    cases hp : tx.preBalances[t]? with
    | none =>
      have hparse : parseSOLTransfers tx w = [] := by simp [parseSOLTransfers, ht, hp]
      rw [hparse]
      simp
    | some p =>
      cases hq : tx.postBalances[t]? with
      | none =>
        have hparse : parseSOLTransfers tx w = [] := by simp [parseSOLTransfers, ht, hp, hq]
        rw [hparse]
        simp
      | some q =>
        by_cases hpos : 0 < lamportsToSol (q - p)
        · cases hf : findFirstIdx (incomingMatch tx t (lamportsToSol (q - p)))
              tx.accountKeys.length 0 with
          | none =>
            have hparse : parseSOLTransfers tx w = [] := by
              simp [parseSOLTransfers, ht, hp, hq, hpos, hf]
            rw [hparse]
            simp
          | some i =>
            have hparse : parseSOLTransfers tx w
                = [⟨tx.accountKeys.getD i "", w, lamportsToSol (q - p),
                    TransferType.incoming⟩] := by
              simp [parseSOLTransfers, ht, hp, hq, hpos, hf]
            obtain ⟨_, hlt, hmatch, _⟩ := findFirstIdx_some_spec _ _ _ _ hf
            unfold incomingMatch at hmatch
            have hne : i ≠ t := of_decide_eq_true ((Bool.and_eq_true _ _).mp hmatch).1
            rw [hparse]
            refine ⟨by simp, ?_⟩
            intro e he
            rw [List.mem_singleton] at he
            subst he
            exact ⟨hpos, t, i, rfl, by omega, hne, rfl⟩
        · by_cases hneg : lamportsToSol (q - p) < 0
          · cases hf : findFirstIdx (outgoingMatch tx t (lamportsToSol (q - p)))
                tx.accountKeys.length 0 with
            | none =>
              have hparse : parseSOLTransfers tx w = [] := by
                simp [parseSOLTransfers, ht, hp, hq, hpos, hneg, hf]
              rw [hparse]
              simp
            | some i =>
              have hparse : parseSOLTransfers tx w
                  = [⟨w, tx.accountKeys.getD i "", jsAbs (lamportsToSol (q - p)),
                      TransferType.outgoing⟩] := by
                simp [parseSOLTransfers, ht, hp, hq, hpos, hneg, hf]
              obtain ⟨_, hlt, hmatch, _⟩ := findFirstIdx_some_spec _ _ _ _ hf
              unfold outgoingMatch at hmatch
              have hne : i ≠ t := of_decide_eq_true ((Bool.and_eq_true _ _).mp hmatch).1
              rw [hparse]
              refine ⟨by simp, ?_⟩
              intro e he
              rw [List.mem_singleton] at he
              subst he
              refine ⟨?_, t, i, rfl, by omega, hne, rfl⟩
              show 0 < jsAbs (lamportsToSol (q - p))
              unfold jsAbs
              rw [if_pos hneg]
              exact neg_pos.mpr hneg
          · have hparse : parseSOLTransfers tx w = [] := by
              simp [parseSOLTransfers, ht, hp, hq, hpos, hneg]
            rw [hparse]
            simp

/-- Concrete run of claim10_extraction_shape on tx7good. -/
theorem claim10_witness :
    (parseSOLTransfers tx7good "T").length ≤ 1 ∧
    (0 < (Transfer.mk "A" "T" (mkRat 1 2) TransferType.incoming).amount ∧
      ∃ ti i, targetIdx tx7good "T" = some ti ∧ i < tx7good.accountKeys.length ∧ i ≠ ti ∧
        relevantCounterparty (Transfer.mk "A" "T" (mkRat 1 2) TransferType.incoming)
          = tx7good.accountKeys.getD i "") :=
  ⟨(claim10_extraction_shape tx7good "T").1,
    (claim10_extraction_shape tx7good "T").2 (Transfer.mk "A" "T" (mkRat 1 2) TransferType.incoming)
      (by with_unfolding_all (exact List.mem_singleton.mpr rfl))⟩

end RevsTracker
